import Mathlib

/-!
Verification of the memory/context engine of `src/core/src/memory/mod.rs`.

Shallow embedding conventions:
* timestamps (`chrono::DateTime<Utc>`) are integer seconds since the epoch
  (`Int`); `chrono::Duration::num_hours` of a non-negative duration is
  integer division of seconds by 3600;
* `f32`/`f64` arithmetic is modelled exactly: scores built from `exp`/`log10`
  live in `ℝ`, purely rational computations (frequency ratios, z-score
  tests) live in `ℚ`; z-score comparisons `|z| > t` against
  `z = (x - mean)/sqrt variance` are encoded in the equivalent squared form
  `(x - mean)^2 > t^2 * variance`, which also agrees with the source when
  `variance = 0` (there the f64 code produces `NaN`, every comparison false;
  here the left side is `0`, every comparison false);
* `u32` counters are `Nat` (with an explicit `< 2^32` bound where the width
  matters), SQLite integers are unbounded;
* the SQLite `memories` table is a list of `MemoryRow`; text columns hold
  exactly the strings the Rust code binds, in particular the
  `serde_json::to_string` encoding of enum values, which includes the JSON
  quote characters;
* `HashMap` iteration order is an explicit parameter (a list of keys)
  wherever the source iterates over a map;
* the external Encryption Collaborator is an opaque function parameter
  `encrypt : String → String → String` (plaintext, key id ↦ ciphertext);
  only the ciphertext component of its `EncryptedData` result is ever
  stored, so the nonce/tag fields are not modelled.
-/

namespace Misa

/-- Type `ContentType` from the source. -/
inductive ContentType where
  | Text | Image | Audio | Video | Document | Code | StructuredData
deriving DecidableEq, Repr

/-- Type `MemoryType` from the source. -/
inductive MemoryType where
  | ShortTerm | MediumTerm | LongTerm | Permanent
deriving DecidableEq, Repr

/-- Type `Importance` from the source. -/
inductive Importance where
  | Low | Medium | High | Critical
deriving DecidableEq, Repr

/-- Type `MemoryItem` from the source.  `metadata` (a `serde_json::Value`) is kept
as its already-encoded JSON text, which is all the embedded operations ever
do with it. -/
structure MemoryItem where
  id : String
  content : String
  content_type : ContentType
  memory_type : MemoryType
  importance : Importance
  tags : List String
  metadata : String
  created_at : Int
  last_accessed : Int
  access_count : Nat
  encrypted : Bool
deriving DecidableEq, Repr

/-- Type `ApplicationInfo` from the source; only the fields read by the embedded
operations (`name`) plus identifying fields are carried. -/
structure ApplicationInfo where
  app_id : String
  name : String
  focused : Bool
deriving DecidableEq, Repr

/-- Type `TimeOfDay` from the source. -/
inductive TimeOfDay where
  | EarlyMorning | Morning | Afternoon | Evening | Night | LateNight
deriving DecidableEq, Repr

/-- Type `DayOfWeek` from the source. -/
inductive DayOfWeek where
  | Monday | Tuesday | Wednesday | Thursday | Friday | Saturday | Sunday
deriving DecidableEq, Repr

/-- Type `SystemState` from the source (CPU/memory snapshot; inner detail beyond
what the claims mention is collapsed to representative fields). -/
structure SystemState where
  cpu_usage_percent : ℚ
  memory_usage_mb : Nat
  battery_level : Option ℚ
deriving DecidableEq, Repr

/-- Type `EnvironmentContext` from the source. -/
structure EnvironmentContext where
  time_of_day : TimeOfDay
  day_of_week : DayOfWeek
deriving DecidableEq, Repr

/-- Type `CommunicationStyle` from the source; `preferred_tone` is the field the
relevance scorer reads. -/
structure CommunicationStyle where
  preferred_tone : List String
deriving DecidableEq, Repr

/-- Type `UserPreferences` from the source. -/
structure UserPreferences where
  language : String
  timezone : String
  communication_style : CommunicationStyle
deriving DecidableEq, Repr

/-- Type `ContextState` from the source. -/
structure ContextState where
  session_id : String
  user_id : String
  current_task : Option String
  active_applications : List ApplicationInfo
  system_state : SystemState
  environment : EnvironmentContext
  user_preferences : UserPreferences
  short_term_memory : List MemoryItem
  last_updated : Int
deriving DecidableEq, Repr

/-- Type `ContextSourceType` from the source. -/
inductive ContextSourceType where
  | Application | System | Sensor | Browser | Calendar | Email | Chat
  | File | Location | Biometric
deriving DecidableEq, Repr

/-- Type `ContextSource` from the source; the `last_data` JSON payload is kept as
opaque text. -/
structure ContextSource where
  source_id : String
  source_type : ContextSourceType
  name : String
  enabled : Bool
  priority : Nat
  last_data : Option String
  last_updated : Int
deriving DecidableEq, Repr

/-- State owned by `ContextEngine`: the single mutable context snapshot plus
the registry of named context sources (`HashMap<String, ContextSource>`,
modelled by its lookup function). -/
structure ContextEngineState where
  active_context : ContextState
  context_sources : String → Option ContextSource

/-- Source `ContextEngine::add_to_short_term_memory`: push the item, then if the
length exceeds 50 remove the element at index 0. -/
def add_to_short_term_memory (stm : List MemoryItem) (memory : MemoryItem) :
    List MemoryItem :=
  let pushed := stm ++ [memory]
  if pushed.length > 50 then pushed.drop 1 else pushed

/-- Source `ContextEngine::update_context`: re-register the source under its
`source_id`, then set `last_updated` on the active context to the current
time.  The `data` payload is received but not used by the source. -/
def update_context (now : Int) (st : ContextEngineState)
    (source : ContextSource) (_data : String) : ContextEngineState :=
  let sources := fun k =>
    if k = source.source_id then some source else st.context_sources k
  { st with
    context_sources := sources
    active_context := { st.active_context with last_updated := now } }

/-! ## Persistence layer (`memories` SQLite table) -/

/-- One row of the `memories` table, with exactly the columns of
`create_tables`.  Text columns hold the strings the Rust code binds. -/
structure MemoryRow where
  id : String
  content : String
  content_type : String
  memory_type : String
  importance : String
  tags : String
  metadata : String
  created_at : Int
  last_accessed : Int
  access_count : Nat
  encrypted : Bool
  encrypted_data : Option String
deriving DecidableEq, Repr

/-- The `serde_json::to_string` encoding of a `ContentType` value: the variant name as a
JSON string, i.e. wrapped in quote characters. -/
def content_type_to_db : ContentType → String
  | .Text => "\"Text\""
  | .Image => "\"Image\""
  | .Audio => "\"Audio\""
  | .Video => "\"Video\""
  | .Document => "\"Document\""
  | .Code => "\"Code\""
  | .StructuredData => "\"StructuredData\""

/-- The `serde_json::to_string` encoding of a `MemoryType` value: the variant name as a
JSON string, i.e. wrapped in quote characters. -/
def memory_type_to_db : MemoryType → String
  | .ShortTerm => "\"ShortTerm\""
  | .MediumTerm => "\"MediumTerm\""
  | .LongTerm => "\"LongTerm\""
  | .Permanent => "\"Permanent\""

/-- The `serde_json::to_string` encoding of an `Importance` value. -/
def importance_to_db : Importance → String
  | .Low => "\"Low\""
  | .Medium => "\"Medium\""
  | .High => "\"High\""
  | .Critical => "\"Critical\""

/-- The `serde_json::to_string` encoding of a `Vec<String>`: a JSON array of quoted
strings (escaping of special characters inside the strings is elided; no
embedded operation reads this column back). -/
def tags_to_json (tags : List String) : String :=
  "[" ++ String.intercalate "," (tags.map (fun t => "\"" ++ t ++ "\"")) ++ "]"

/-- Source `MemoryManager::insert_memory_to_db`: append one row binding the
serialized fields; the `content` column always receives `memory.content`,
and the ciphertext (when present) goes to `encrypted_data`. -/
def insert_memory_to_db (memory : MemoryItem) (encrypted_data : Option String)
    (db : List MemoryRow) : List MemoryRow :=
  db ++ [{
    id := memory.id
    content := memory.content
    content_type := content_type_to_db memory.content_type
    memory_type := memory_type_to_db memory.memory_type
    importance := importance_to_db memory.importance
    tags := tags_to_json memory.tags
    metadata := memory.metadata
    created_at := memory.created_at
    last_accessed := memory.last_accessed
    access_count := memory.access_count
    encrypted := memory.encrypted
    encrypted_data := encrypted_data }]

/-- Source `MemoryManager::store_memory`: encrypt through the collaborator keyed by
`memory.id` when the store-wide flag is on, insert the row, and forward
`ShortTerm` items to the context engine ring.  Returns the new table and the
new short-term ring. -/
def store_memory (encrypt : String → String → String)
    (encryption_enabled : Bool) (memory : MemoryItem)
    (db : List MemoryRow) (stm : List MemoryItem) :
    List MemoryRow × List MemoryItem :=
  let encrypted_memory :=
    if encryption_enabled then some (encrypt memory.content memory.id) else none
  let db := insert_memory_to_db memory encrypted_memory db
  let stm :=
    if memory.memory_type = MemoryType.ShortTerm then
      add_to_short_term_memory stm memory
    else stm
  (db, stm)

/-- Source `MemoryManager::delete_old_memories`:
`DELETE FROM memories WHERE created_at < cutoff AND memory_type != 'Permanent'`
(the SQL literal is the bare 9-character string `Permanent`).  Returns the
number of rows affected and the remaining table. -/
def delete_old_memories (cutoff : Int) (db : List MemoryRow) :
    Nat × List MemoryRow :=
  let remaining :=
    db.filter (fun r => ¬(r.created_at < cutoff ∧ r.memory_type ≠ "Permanent"))
  (db.length - remaining.length, remaining)

/-- Source `MemoryManager::prune_memories`: cutoff is
`now - Duration::days(retention_days)`. -/
def prune_memories (now : Int) (retention_days : Nat) (db : List MemoryRow) :
    Nat × List MemoryRow :=
  delete_old_memories (now - retention_days * 86400) db

/-- Source `MemoryManager::get_memory_from_db`:
`SELECT ... FROM memories WHERE id = ?` (first matching row). -/
def get_memory_from_db (db : List MemoryRow) (memory_id : String) :
    Option MemoryRow :=
  db.find? (fun r => r.id = memory_id)

/-- Source `MemoryManager::update_memory_access_stats`:
`UPDATE memories SET last_accessed = now, access_count = access_count + 1
WHERE id = ?`. -/
def update_memory_access_stats (db : List MemoryRow) (memory_id : String)
    (now : Int) : List MemoryRow :=
  db.map (fun r =>
    if r.id = memory_id then
      { r with last_accessed := now, access_count := r.access_count + 1 }
    else r)

/-- Source `MemoryManager::get_memory`: fetch the row; on a hit run the (identity)
decryption stub, update the access statistics, and return the fetched row;
on a miss return `none` and leave the table unchanged.  The returned value
is the row as fetched, i.e. with the pre-increment statistics. -/
def get_memory (db : List MemoryRow) (memory_id : String) (now : Int) :
    Option MemoryRow × List MemoryRow :=
  match get_memory_from_db db memory_id with
  | some row => (some row, update_memory_access_stats db memory_id now)
  | none => (none, db)

/-- The table after `n` successive reads of `memory_id`, one at each time in
`nows`. -/
def get_memory_iter (db : List MemoryRow) (memory_id : String)
    (nows : List Int) : List MemoryRow :=
  nows.foldl (fun d t => (get_memory d memory_id t).2) db

/-! ## String helpers shared by the analytic subsystems -/

/-- Rust `str::to_lowercase`, restricted to its behaviour on ASCII (every
string the claims exercise is ASCII). -/
def lower_str (s : String) : String := String.mk (s.toList.map Char.toLower)

/-- Worker for `split_whitespace`: `cur` is the current word, reversed. -/
def words_aux : List Char → List Char → List String
  | [], cur => if cur = [] then [] else [String.mk cur.reverse]
  | c :: cs, cur =>
      if c.isWhitespace then
        if cur = [] then words_aux cs []
        else String.mk cur.reverse :: words_aux cs []
      else words_aux cs (c :: cur)

/-- Rust `str::split_whitespace`: the maximal nonempty runs of
non-whitespace characters. -/
def split_whitespace (s : String) : List String :=
  words_aux s.toList []

/-- Rust `str::contains` for string patterns: substring containment. -/
def str_contains (s pat : String) : Bool :=
  s.toList.tails.any (fun t => pat.toList.isPrefixOf t)

/-- Rust `str::len` is the UTF-8 byte length. -/
def str_len (s : String) : Nat := s.utf8ByteSize

/-! ## Relevance scorer

The scorer works on `f32`; it is embedded over `ℝ` (exact arithmetic). -/

/-- From `chrono`: `(now - t).num_hours()` — whole hours.  For the non-negative
durations the claims quantify over, flooring integer division agrees with
the truncating division `num_hours` performs. -/
def hours_since (now t : Int) : Int := (now - t) / 3600

/-- Structure `RelevanceScorer`: the configuration constants. -/
structure RelevanceScorer where
  time_decay_factor : ℝ
  frequency_weight : ℝ
  recency_weight : ℝ
  context_weight : ℝ

/-- Source `RelevanceScorer::new`. -/
noncomputable def RelevanceScorer.new : RelevanceScorer :=
  { time_decay_factor := 0.1
    frequency_weight := 0.3
    recency_weight := 0.4
    context_weight := 0.3 }

/-- Source `RelevanceScorer::calculate_time_score`: exponential decay in the whole
hours since last access. -/
noncomputable def calculate_time_score (s : RelevanceScorer) (now : Int)
    (memory : MemoryItem) : ℝ :=
  Real.exp (-s.time_decay_factor * (hours_since now memory.last_accessed : ℝ))

/-- Source `RelevanceScorer::calculate_frequency_score`:
`log10(1 + access_count) / 10`. -/
noncomputable def calculate_frequency_score (memory : MemoryItem) : ℝ :=
  Real.logb 10 (1 + (memory.access_count : ℝ)) / 10

/-- Source `RelevanceScorer::calculate_context_score`: 0.5 when the lowercased
content contains the lowercased current task, 0.3 per matching active
application name, 0.2 per tag found in the preferred tones, clamped above
by 1. -/
noncomputable def calculate_context_score (memory : MemoryItem)
    (context : ContextState) : ℝ :=
  let task_score : ℝ :=
    match context.current_task with
    | some task =>
        if str_contains (lower_str memory.content) (lower_str task) then 0.5 else 0
    | none => 0
  let app_score : ℝ := 0.3 *
    ((context.active_applications.filter
        (fun app => str_contains (lower_str memory.content) (lower_str app.name))).length : ℝ)
  let tag_score : ℝ := 0.2 *
    ((memory.tags.filter
        (fun tag =>
          context.user_preferences.communication_style.preferred_tone.contains
            (lower_str tag))).length : ℝ)
  min (task_score + app_score + tag_score) 1

/-- Source `RelevanceScorer::calculate_relevance`: the weighted sum of the three
component scores. -/
noncomputable def calculate_relevance (s : RelevanceScorer) (now : Int)
    (memory : MemoryItem) (context : ContextState) : ℝ :=
  calculate_time_score s now memory * s.recency_weight +
  calculate_frequency_score memory * s.frequency_weight +
  calculate_context_score memory context * s.context_weight

/-! ## Prediction engine (relevant-memories predictor) -/

/-- Type `Prediction` from the source. -/
structure Prediction where
  prediction_type : String
  confidence : ℝ
  suggestion : String
  supporting_memories : List String
  valid_until : Int

/-- Source `PredictionEngine::predict_relevant_memories`: score every item with a
fresh `RelevanceScorer`, keep scores above 0.5, sort descending by score,
and emit one prediction whose confidence is the top score and whose
supporting memories are the top three ids. -/
noncomputable def predict_relevant_memories (now : Int)
    (context : ContextState) (memories : List MemoryItem) : List Prediction :=
  let scored :=
    memories.map (fun m => (calculate_relevance RelevanceScorer.new now m context, m))
  let relevant := scored.filter (fun p => decide ((0.5 : ℝ) < p.1))
  let sorted := List.insertionSort (fun a b => b.1 ≤ a.1) relevant
  match sorted with
  | [] => []
  | top :: _ =>
      [{ prediction_type := "relevant_memories"
         confidence := top.1
         suggestion := "These memories might be relevant to your current task"
         supporting_memories := (sorted.take 3).map (fun p => p.2.id)
         valid_until := now + 7200 }]

/-! ## Pattern detector

All confidences are frequency ratios, computed here in exact rationals. -/

/-- Type `PatternType` from the source (`avg_duration` kept in whole minutes, as
produced by `Duration::minutes`). -/
inductive PatternType where
  | Temporal (hour_of_day : Nat) (day_of_week : DayOfWeek) (frequency : ℚ)
  | Contextual (trigger_situation : String) (typical_response : String)
      (confidence : ℚ)
  | Behavioral (action_sequence : List String) (completion_rate : ℚ)
      (avg_duration_minutes : Int)
deriving DecidableEq, Repr

/-- Type `DetectedPattern` from the source. -/
structure DetectedPattern where
  pattern_type : PatternType
  confidence : ℚ
  description : String
deriving DecidableEq, Repr

/-- Structure `PatternDetector`: configuration (`detection_threshold = 0.7`). -/
structure PatternDetector where
  detection_threshold : ℚ
deriving DecidableEq, Repr

/-- Source `PatternDetector::new`. -/
def PatternDetector.new : PatternDetector := ⟨7/10⟩

/-- From `chrono`: `created_at.hour()` of a UTC timestamp in seconds. -/
def hour_of (t : Int) : Nat := ((t / 3600) % 24).toNat

/-- Models `iter().max_by_key` over a frequency map whose keys are `keys` and whose
counts are taken in `occurrences`: the key with the greatest count together
with that count.  `HashMap` iteration order is unspecified in the source, so
ties between distinct keys are broken arbitrarily there; here the first
maximal key of `keys` wins.  No claim depends on the tie-break. -/
def max_count_key {α : Type} [DecidableEq α] (occurrences keys : List α) :
    Option (α × Nat) :=
  keys.foldl (fun acc k =>
    match acc with
    | none => some (k, occurrences.count k)
    | some kc =>
        if occurrences.count k > kc.2 then some (k, occurrences.count k)
        else acc) none

/-- Source `PatternDetector::detect_temporal_patterns`: bucket items by hour of
creation and emit a pattern for the most frequent hour when its share of the
batch reaches the threshold. -/
def detect_temporal_patterns (d : PatternDetector)
    (memories : List MemoryItem) : List DetectedPattern :=
  let hours := memories.map (fun m => hour_of m.created_at)
  match max_count_key hours hours.dedup with
  | none => []
  | some hc =>
      let confidence : ℚ := (hc.2 : ℚ) / (memories.length : ℚ)
      if confidence ≥ d.detection_threshold then
        [{ pattern_type := .Temporal hc.1 DayOfWeek.Monday confidence
           confidence := confidence
           description := "User is most active at " ++ toString hc.1 ++ ":00" }]
      else []

/-- The lowercased tokens of the batch: every whitespace-separated word of
byte length strictly greater than 3, one occurrence per appearance. -/
def token_occurrences (memories : List MemoryItem) : List String :=
  memories.flatMap
    (fun m => ((split_whitespace m.content).filter
        (fun w => str_len w > 3)).map lower_str)

/-- The number of occurrences of token `t` across the batch. -/
def keyword_count (memories : List MemoryItem) (t : String) : Nat :=
  (token_occurrences memories).count t

/-- Source `PatternDetector::detect_contextual_patterns`: emit one pattern per
distinct token whose frequency ratio reaches `threshold * 0.5`.  The keyword
map is iterated in first-occurrence order (the source iterates its `HashMap`
in unspecified order; every claim below only concerns membership, which is
order-independent). -/
def detect_contextual_patterns (d : PatternDetector)
    (memories : List MemoryItem) : List DetectedPattern :=
  let occurrences := token_occurrences memories
  occurrences.dedup.filterMap (fun keyword =>
    let confidence : ℚ := (occurrences.count keyword : ℚ) / (memories.length : ℚ)
    if confidence ≥ d.detection_threshold * (1/2) then
      some { pattern_type :=
               .Contextual keyword ("User frequently deals with " ++ keyword)
                 confidence
             confidence := confidence
             description := "Frequent context: " ++ keyword }
    else none)

/-- Source `PatternDetector::detect_behavioral_patterns`: sort by creation time,
take consecutive whole-minute gaps, and report the mean gap with confidence
0.8 whenever at least one gap exists.  (The numeric text inside the source
format string is elided from the description.) -/
def detect_behavioral_patterns (memories : List MemoryItem) :
    List DetectedPattern :=
  let sorted :=
    List.insertionSort (fun a b : MemoryItem => a.created_at ≤ b.created_at)
      memories
  let creation_intervals :=
    (sorted.zip sorted.tail).map
      (fun p => (((p.2.created_at - p.1.created_at) / 60 : Int) : ℚ))
  if creation_intervals = [] then []
  else
    let avg_interval := creation_intervals.sum / (creation_intervals.length : ℚ)
    [{ pattern_type := .Behavioral ["create_memory"] (4/5) ⌊avg_interval⌋
       confidence := 4/5
       description := "User creates memories on a regular average interval" }]

/-- Source `PatternDetector::detect_patterns`: concatenate the three analyses and
keep the patterns whose confidence reaches `detection_threshold`. -/
def detect_patterns (d : PatternDetector) (memories : List MemoryItem) :
    List DetectedPattern :=
  (detect_temporal_patterns d memories ++
   detect_contextual_patterns d memories ++
   detect_behavioral_patterns memories).filter
    (fun p => p.confidence ≥ d.detection_threshold)

/-- Returns `true` exactly when `detect_patterns` would return a contextual pattern
triggered by `t`. -/
def is_contextual_for (t : String) (p : DetectedPattern) : Bool :=
  match p.pattern_type with
  | .Contextual trigger _ _ => trigger = t
  | _ => false

/-! ## Anomaly detector

The z-score tests `|z| > t` with `z = (x - mean)/std_dev` are encoded as
`(x - mean)^2 > t^2 * variance`; for entries that pass the volume test the
signed comparison `z > 2` is equivalent to `x > mean`. -/

/-- Type `AnomalyType` from the source. -/
inductive AnomalyType where
  | UnusualAccessPattern | MemoryVolumeSpike | ContextualMismatch
  | TemporalAnomaly
deriving DecidableEq, Repr

/-- Type `AnomalySeverity` from the source. -/
inductive AnomalySeverity where
  | Low | Medium | High | Critical
deriving DecidableEq, Repr

/-- Type `DetectedAnomaly` from the source (numeric text inside the source format
strings is elided from descriptions). -/
structure DetectedAnomaly where
  anomaly_type : AnomalyType
  severity : AnomalySeverity
  description : String
  affected_memories : List String
  detected_at : Int
deriving DecidableEq, Repr

/-- Structure `AnomalyDetector`: configuration (`anomaly_threshold = 2.0`). -/
structure AnomalyDetector where
  anomaly_threshold : ℚ
deriving DecidableEq, Repr

/-- Source `AnomalyDetector::new`. -/
def AnomalyDetector.new : AnomalyDetector := ⟨2⟩

/-- Source `AnomalyDetector::detect_access_anomalies`: with at least 10 items, flag
every item whose access count deviates from the batch mean by more than
`anomaly_threshold` standard deviations; severity `High` when the deviation
exceeds 3 standard deviations, `Medium` otherwise. -/
def detect_access_anomalies (det : AnomalyDetector) (now : Int)
    (memories : List MemoryItem) : List DetectedAnomaly :=
  let access_counts := memories.map (fun m => m.access_count)
  if access_counts.length < 10 then []
  else
    let n : ℚ := (access_counts.length : ℚ)
    let mean : ℚ := (access_counts.sum : ℚ) / n
    let variance : ℚ :=
      (access_counts.map (fun x => ((x : ℚ) - mean) ^ 2)).sum / n
    memories.filterMap (fun m =>
      if ((m.access_count : ℚ) - mean) ^ 2 > det.anomaly_threshold ^ 2 * variance
      then
        some { anomaly_type := .UnusualAccessPattern
               severity :=
                 if ((m.access_count : ℚ) - mean) ^ 2 > 9 * variance then
                   AnomalySeverity.High
                 else AnomalySeverity.Medium
               description := "Memory " ++ m.id ++ " has an unusual access count"
               affected_memories := [m.id]
               detected_at := now }
      else none)

/-- From `chrono`: `created_at.date_naive()` — the UTC day of a timestamp. -/
def date_of (t : Int) : Int := t / 86400

/-- The number of items of the batch created on day `d`
(one entry of the `daily_counts` map). -/
def day_count (memories : List MemoryItem) (d : Int) : Nat :=
  (memories.filter (fun m => date_of m.created_at = d)).length

/-- Asserts that `days` is an admissible iteration order of the `daily_counts` `HashMap`:
its keys are exactly the distinct creation days of the batch. -/
def valid_day_order (memories : List MemoryItem) (days : List Int) : Prop :=
  days.Nodup ∧ ∀ d, d ∈ days ↔ ∃ m ∈ memories, date_of m.created_at = d

/-- Source `AnomalyDetector::detect_volume_anomalies`: with at least 7 distinct
creation days, flag every day whose volume deviates from the daily mean by
more than `anomaly_threshold` standard deviations; severity `Medium` for
positive outliers (`z > 2`), `Low` otherwise. -/
def detect_volume_anomalies (det : AnomalyDetector) (now : Int)
    (days : List Int) (memories : List MemoryItem) : List DetectedAnomaly :=
  if days.length < 7 then []
  else
    let counts := days.map (fun d => (day_count memories d : ℚ))
    let n : ℚ := (counts.length : ℚ)
    let mean := counts.sum / n
    let variance := (counts.map (fun x => (x - mean) ^ 2)).sum / n
    days.filterMap (fun d =>
      let c : ℚ := (day_count memories d : ℚ)
      if (c - mean) ^ 2 > det.anomaly_threshold ^ 2 * variance then
        some { anomaly_type := .MemoryVolumeSpike
               severity :=
                 if c > mean then AnomalySeverity.Medium else AnomalySeverity.Low
               description := "Unusual memory volume"
               affected_memories :=
                 (memories.filter (fun m => date_of m.created_at = d)).map
                   (fun m => m.id)
               detected_at := now }
      else none)

/-- The predefined conflicting tag pairs. -/
def conflicting_tags : List (String × String) :=
  [("urgent", "low-priority"), ("work", "personal"), ("important", "trivial")]

/-- Source `AnomalyDetector::has_contextual_conflict`. -/
def has_contextual_conflict (memory : MemoryItem) : Bool :=
  conflicting_tags.any
    (fun p => memory.tags.contains p.1 && memory.tags.contains p.2)

/-- Source `AnomalyDetector::detect_contextual_anomalies`. -/
def detect_contextual_anomalies (now : Int) (memories : List MemoryItem) :
    List DetectedAnomaly :=
  memories.filterMap (fun m =>
    if has_contextual_conflict m then
      some { anomaly_type := .ContextualMismatch
             severity := AnomalySeverity.Low
             description := "Memory " ++ m.id ++ " has contextual conflicts"
             affected_memories := [m.id]
             detected_at := now }
    else none)

/-- Source `AnomalyDetector::detect_anomalies`: the three checks, concatenated. -/
def detect_anomalies (det : AnomalyDetector) (now : Int) (days : List Int)
    (memories : List MemoryItem) : List DetectedAnomaly :=
  detect_access_anomalies det now memories ++
  detect_volume_anomalies det now days memories ++
  detect_contextual_anomalies now memories

/-- The set of flagged item ids of an anomaly report: the union of the
`affected_memories` of all produced anomalies. -/
def flagged_ids (anomalies : List DetectedAnomaly) : Finset String :=
  (anomalies.flatMap (fun a => a.affected_memories)).toFinset

/-! ## Concrete fixtures used by counterexamples and witnesses -/

/-- A short-term item with a distinguishing access count, for exercising the
ring buffer. -/
def mk_item (i : Nat) : MemoryItem :=
  { id := "m" ++ toString i
    content := ""
    content_type := ContentType.Text
    memory_type := MemoryType.ShortTerm
    importance := Importance.Low
    tags := []
    metadata := "{}"
    created_at := 0
    last_accessed := 0
    access_count := i
    encrypted := false }

/-- A list of 51 pairwise distinct items pushed in sequence. -/
def ex_items_51 : List MemoryItem := (List.range 51).map mk_item

/-- A `Permanent` item created at time 0. -/
def perm_item : MemoryItem :=
  { id := "perm-1"
    content := "keep"
    content_type := ContentType.Text
    memory_type := MemoryType.Permanent
    importance := Importance.Critical
    tags := []
    metadata := "{}"
    created_at := 0
    last_accessed := 0
    access_count := 0
    encrypted := false }

/-- A non-`Permanent` item created at time 0. -/
def old_item : MemoryItem :=
  { perm_item with id := "old-1", memory_type := MemoryType.LongTerm }

/-- A sample opaque Encryption Collaborator. -/
def ex_encrypt (plaintext key_id : String) : String :=
  "enc:" ++ key_id ++ ":" ++ plaintext

/-- An item stored while the store-wide encryption flag is on. -/
def secret_item : MemoryItem :=
  { id := "m-sec"
    content := "top secret"
    content_type := ContentType.Text
    memory_type := MemoryType.LongTerm
    importance := Importance.High
    tags := []
    metadata := "{}"
    created_at := 0
    last_accessed := 0
    access_count := 0
    encrypted := true }

/-- A stored row for exercising reads. -/
def ex_row : MemoryRow :=
  { id := "m1"
    content := "Buy milk"
    content_type := "\"Text\""
    memory_type := "\"ShortTerm\""
    importance := "\"Medium\""
    tags := "[]"
    metadata := "{}"
    created_at := 0
    last_accessed := 0
    access_count := 0
    encrypted := false
    encrypted_data := none }

/-- A default context snapshot. -/
def ex_context_state : ContextState :=
  { session_id := "s"
    user_id := "u"
    current_task := none
    active_applications := []
    system_state :=
      { cpu_usage_percent := 0, memory_usage_mb := 0, battery_level := none }
    environment := { time_of_day := TimeOfDay.Morning, day_of_week := DayOfWeek.Monday }
    user_preferences :=
      { language := "en", timezone := "UTC"
        communication_style := { preferred_tone := [] } }
    short_term_memory := []
    last_updated := 0 }

/-- A context-engine state with an empty source registry. -/
def ex_engine_state : ContextEngineState :=
  { active_context := ex_context_state, context_sources := fun _ => none }

/-- A sample context source. -/
def ex_source : ContextSource :=
  { source_id := "system"
    source_type := ContextSourceType.System
    name := "System Monitor"
    enabled := true
    priority := 10
    last_data := none
    last_updated := 0 }

/-- Contextual-pattern counterexample batch: each token occurs once in a
batch of two, frequency ratio `1/2`. -/
def cex_item_1 : MemoryItem := { mk_item 0 with id := "c1", content := "alpha beta" }

/-- Second item of the contextual-pattern counterexample batch. -/
def cex_item_2 : MemoryItem := { mk_item 1 with id := "c2", content := "gamma delta" }

/-- The contextual-pattern counterexample batch. -/
def cex_batch : List MemoryItem := [cex_item_1, cex_item_2]

/-- A batch whose only token has frequency ratio 2. -/
def c7w_item : MemoryItem := { mk_item 0 with id := "w", content := "hello hello" }

/-- Context of the relevant-memory prediction scenario. -/
def c9_context : ContextState :=
  { ex_context_state with current_task := some "report" }

/-- Item of the relevant-memory prediction scenario: contains "report",
last accessed one hour before time 0, access count 10. -/
def c9_item : MemoryItem :=
  { id := "r1"
    content := "quarterly report"
    content_type := ContentType.Text
    memory_type := MemoryType.MediumTerm
    importance := Importance.Medium
    tags := []
    metadata := "{}"
    created_at := -7200
    last_accessed := -3600
    access_count := 10
    encrypted := false }

/-- An item for the anomaly-determinism witness, created on day 0. -/
def c6_item : MemoryItem := { mk_item 0 with id := "a1" }

/-! # Theorems -/

/-- C10: `update_context` leaves every field of the context snapshot other
than `last_updated` unchanged (the `data` payload is never merged), sets
`last_updated` to the current time, and its only other effect is that the
source registry now maps `source.source_id` to the given source; every other
registry key is untouched. -/
theorem update_context_frame (now : Int) (st : ContextEngineState)
    (source : ContextSource) (data data' : String) (k : String)
    (hk : k ≠ source.source_id) :
    (update_context now st source data).active_context.session_id
        = st.active_context.session_id ∧
    (update_context now st source data).active_context.user_id
        = st.active_context.user_id ∧
    (update_context now st source data).active_context.current_task
        = st.active_context.current_task ∧
    (update_context now st source data).active_context.active_applications
        = st.active_context.active_applications ∧
    (update_context now st source data).active_context.system_state
        = st.active_context.system_state ∧
    (update_context now st source data).active_context.environment
        = st.active_context.environment ∧
    (update_context now st source data).active_context.user_preferences
        = st.active_context.user_preferences ∧
    (update_context now st source data).active_context.short_term_memory
        = st.active_context.short_term_memory ∧
    (update_context now st source data).active_context.last_updated = now ∧
    (update_context now st source data).context_sources source.source_id
        = some source ∧
    (update_context now st source data).context_sources k
        = st.context_sources k ∧
    update_context now st source data = update_context now st source data' := by
  refine ⟨rfl, rfl, rfl, rfl, rfl, rfl, rfl, rfl, rfl, ?_, ?_, rfl⟩
  · simp [update_context]
  · simp [update_context, hk]

/-- Witness for `update_context_frame` at a concrete state and source. -/
theorem update_context_frame_witness :
    (update_context 5 ex_engine_state ex_source "payload").active_context.session_id
        = ex_engine_state.active_context.session_id ∧
    (update_context 5 ex_engine_state ex_source "payload").active_context.user_id
        = ex_engine_state.active_context.user_id ∧
    (update_context 5 ex_engine_state ex_source "payload").active_context.current_task
        = ex_engine_state.active_context.current_task ∧
    (update_context 5 ex_engine_state ex_source "payload").active_context.active_applications
        = ex_engine_state.active_context.active_applications ∧
    (update_context 5 ex_engine_state ex_source "payload").active_context.system_state
        = ex_engine_state.active_context.system_state ∧
    (update_context 5 ex_engine_state ex_source "payload").active_context.environment
        = ex_engine_state.active_context.environment ∧
    (update_context 5 ex_engine_state ex_source "payload").active_context.user_preferences
        = ex_engine_state.active_context.user_preferences ∧
    (update_context 5 ex_engine_state ex_source "payload").active_context.short_term_memory
        = ex_engine_state.active_context.short_term_memory ∧
    (update_context 5 ex_engine_state ex_source "payload").active_context.last_updated = 5 ∧
    (update_context 5 ex_engine_state ex_source "payload").context_sources ex_source.source_id
        = some ex_source ∧
    (update_context 5 ex_engine_state ex_source "payload").context_sources "battery"
        = ex_engine_state.context_sources "battery" ∧
    update_context 5 ex_engine_state ex_source "payload"
        = update_context 5 ex_engine_state ex_source "other payload" :=
  update_context_frame 5 ex_engine_state ex_source "payload" "other payload"
    "battery" (by decide)

/-- C1 (code bug): `insert_memory_to_db` stores `memory_type` as its
`serde_json` encoding, which carries JSON quote characters, while
`delete_old_memories` compares the column against the bare SQL literal
`Permanent`.  The stored encoding of `Permanent` therefore never equals the
literal, and a `Permanent` item older than the retention cutoff is deleted
by `prune_memories` together with the old non-`Permanent` item (2 rows
removed, nothing remains) instead of surviving it. -/
theorem prune_memories_deletes_permanent :
    memory_type_to_db MemoryType.Permanent ≠ "Permanent" ∧
    prune_memories (31 * 86400) 30
        (insert_memory_to_db old_item none
          (insert_memory_to_db perm_item none [])) = (2, []) := by
  constructor
  · decide
  · rfl

/-- C2 (code bug): `store_memory` with the encryption flag on binds the
plaintext `content` into the `content` column of the inserted row; the
ciphertext produced by the collaborator keyed by `item.id` is stored in
`encrypted_data` *alongside* the plaintext, so the plaintext reaches durable
storage. -/
theorem store_memory_persists_plaintext :
    (store_memory ex_encrypt true secret_item [] []).1 =
      [{ id := "m-sec"
         content := "top secret"
         content_type := "\"Text\""
         memory_type := "\"LongTerm\""
         importance := "\"High\""
         tags := "[]"
         metadata := "{}"
         created_at := 0
         last_accessed := 0
         access_count := 0
         encrypted := true
         encrypted_data := some "enc:m-sec:top secret" }] ∧
    ((store_memory ex_encrypt true secret_item [] []).1.map
        (fun r => r.content)) = [secret_item.content] := by
  constructor
  · rfl
  · rfl

/-- One push keeps the ring at capacity: from a ring of at most 50 items,
`add_to_short_term_memory` returns at most 50 items. -/
theorem add_to_short_term_memory_length_le (stm : List MemoryItem)
    (m : MemoryItem) (h : stm.length ≤ 50) :
    (add_to_short_term_memory stm m).length ≤ 50 := by
  simp only [add_to_short_term_memory]
  split
  · simpa using h
  · next h' =>
    simp only [List.length_append, List.length_cons, List.length_nil] at h' ⊢
    omega

/-- Pushing a sequence into a ring of at most 50 items keeps it at most
50 items. -/
theorem foldl_add_to_short_term_length_le (items : List MemoryItem) :
    ∀ stm : List MemoryItem, stm.length ≤ 50 →
      (items.foldl add_to_short_term_memory stm).length ≤ 50 := by
  induction items with
  | nil => intro stm h; simpa using h
  | cons a l ih =>
      intro stm h
      exact ih _ (add_to_short_term_memory_length_le stm a h)

/-- While capacity is not reached the ring is a plain append. -/
theorem foldl_add_to_short_term_eq_append (items : List MemoryItem) :
    ∀ stm : List MemoryItem, stm.length + items.length ≤ 50 →
      items.foldl add_to_short_term_memory stm = stm ++ items := by
  induction items with
  | nil => intro stm _; simp
  | cons a l ih =>
      intro stm h
      simp only [List.length_cons] at h
      have hstep : add_to_short_term_memory stm a = stm ++ [a] := by
        simp only [add_to_short_term_memory]
        rw [if_neg]
        simp only [List.length_append, List.length_cons, List.length_nil]
        omega
      rw [List.foldl_cons, hstep, ih (stm ++ [a]) (by simp; omega)]
      simp

/-- C4: pushing appends at the end and evicts index 0 once the length would
exceed 50: a ring of at most 50 items stays at most 50 after a push, any
sequence of pushes into the empty ring stays at most 50, pushing exactly 51
items leaves precisely the last 50 in order, and the first-pushed item of 51
pairwise-distinct items is absent afterwards. -/
theorem short_term_memory_fifo (items stm : List MemoryItem)
    (m x : MemoryItem) :
    (stm.length ≤ 50 → (add_to_short_term_memory stm m).length ≤ 50) ∧
    (items.foldl add_to_short_term_memory []).length ≤ 50 ∧
    (items.length = 51 →
      items.foldl add_to_short_term_memory [] = items.drop 1) ∧
    (items.length = 51 → items.Nodup → items.head? = some x →
      x ∉ items.foldl add_to_short_term_memory []) := by
  have h51 : items.length = 51 →
      items.foldl add_to_short_term_memory [] = items.drop 1 := by
    intro h
    have hne : items ≠ [] := by intro e; rw [e] at h; simp at h
    have hsplit := List.dropLast_append_getLast hne
    have hlen : items.dropLast.length = 50 := by
      simp [List.length_dropLast, h]
    have hfold : items.dropLast.foldl add_to_short_term_memory [] =
        items.dropLast := by
      simpa using foldl_add_to_short_term_eq_append items.dropLast []
        (by simp [hlen])
    conv_lhs => rw [← hsplit]
    rw [List.foldl_append, hfold]
    simp only [List.foldl_cons, List.foldl_nil]
    have hpush : add_to_short_term_memory items.dropLast (items.getLast hne) =
        (items.dropLast ++ [items.getLast hne]).drop 1 := by
      simp only [add_to_short_term_memory]
      rw [if_pos]
      simp [hlen]
    rw [hpush, hsplit]
  refine ⟨fun h => add_to_short_term_memory_length_le stm m h,
          foldl_add_to_short_term_length_le items [] (by simp),
          h51, ?_⟩
  intro h hnodup hhead hmem
  rw [h51 h] at hmem
  cases items with
  | nil => simp at hhead
  | cons y t =>
      simp only [List.head?_cons, Option.some.injEq] at hhead
      subst hhead
      simp only [List.drop_succ_cons, List.drop_zero] at hmem
      exact (List.nodup_cons.mp hnodup).1 hmem

/-- Witness for `short_term_memory_fifo`: 51 concrete pushes leave 50 items
and drop the first item. -/
theorem short_term_memory_fifo_witness :
    (ex_items_51.foldl add_to_short_term_memory []).length ≤ 50 ∧
    ex_items_51.foldl add_to_short_term_memory [] = ex_items_51.drop 1 ∧
    mk_item 0 ∉ ex_items_51.foldl add_to_short_term_memory [] := by
  have hlen : ex_items_51.length = 51 := by
    simp [ex_items_51]
  have hinj : Function.Injective mk_item := by
    intro a b hab
    simpa [mk_item] using congrArg MemoryItem.access_count hab
  have hnodup : ex_items_51.Nodup :=
    (List.nodup_range 51).map hinj
  have hhead : ex_items_51.head? = some (mk_item 0) := by
    simp [ex_items_51, List.range_succ_eq_map]
  exact ⟨(short_term_memory_fifo ex_items_51 [] (mk_item 0) (mk_item 0)).2.1,
         (short_term_memory_fifo ex_items_51 [] (mk_item 0) (mk_item 0)).2.2.1 hlen,
         (short_term_memory_fifo ex_items_51 [] (mk_item 0) (mk_item 0)).2.2.2
           hlen hnodup hhead⟩

/-- Lemma: `update_memory_access_stats` rewrites exactly the row found by
`get_memory_from_db`: the fetched row reappears with `last_accessed` set to
the update time and `access_count` incremented by one. -/
theorem get_memory_from_db_update (db : List MemoryRow) (memory_id : String)
    (now : Int) (r : MemoryRow)
    (h : get_memory_from_db db memory_id = some r) :
    get_memory_from_db (update_memory_access_stats db memory_id now) memory_id
      = some { r with last_accessed := now, access_count := r.access_count + 1 } := by
  induction db with
  | nil => simp [get_memory_from_db] at h
  | cons a l ih =>
      by_cases ha : a.id = memory_id
      · rw [get_memory_from_db, List.find?_cons_of_pos _ (by simpa using ha)] at h
        cases h
        simp only [update_memory_access_stats, List.map_cons, if_pos ha,
          get_memory_from_db]
        rw [List.find?_cons_of_pos _ (by simpa using ha)]
      · rw [get_memory_from_db, List.find?_cons_of_neg _ (by simpa using ha)] at h
        simp only [update_memory_access_stats, List.map_cons, if_neg ha,
          get_memory_from_db]
        rw [List.find?_cons_of_neg _ (by simpa using ha)]
        exact ih h

/-- C8: `N` successful reads of a stored id increment its stored
`access_count` by exactly `N` and leave its `id`, `content` and `created_at`
columns unchanged (`decrypt_memory` is the identity stub and
`update_memory_access_stats` touches only `last_accessed` and
`access_count`). -/
theorem get_memory_read_idempotent (db : List MemoryRow) (memory_id : String)
    (nows : List Int) (r : MemoryRow)
    (h : get_memory_from_db db memory_id = some r) :
    ∃ r', get_memory_from_db (get_memory_iter db memory_id nows) memory_id
        = some r' ∧
      r'.access_count = r.access_count + nows.length ∧
      r'.id = r.id ∧ r'.content = r.content ∧ r'.created_at = r.created_at := by
  induction nows generalizing db r with
  | nil => exact ⟨r, by simpa [get_memory_iter] using h, by simp, rfl, rfl, rfl⟩
  | cons t ts ih =>
      have h1 := get_memory_from_db_update db memory_id t r h
      have hstep : get_memory_iter db memory_id (t :: ts) =
          get_memory_iter (update_memory_access_stats db memory_id t)
            memory_id ts := by
        simp [get_memory_iter, get_memory, h]
      obtain ⟨r', h1', h2', h3', h4', h5'⟩ := ih _ _ h1
      refine ⟨r', by rwa [hstep], ?_, h3', h4', h5'⟩
      simp only [h2', List.length_cons]
      omega

/-- Witness for `get_memory_read_idempotent`: three reads of a concrete row
raise its access count from 0 to 3. -/
theorem get_memory_read_idempotent_witness :
    ∃ r', get_memory_from_db (get_memory_iter [ex_row] "m1" [10, 20, 30]) "m1"
        = some r' ∧
      r'.access_count = ex_row.access_count + ([10, 20, 30] : List Int).length ∧
      r'.id = ex_row.id ∧ r'.content = ex_row.content ∧
      r'.created_at = ex_row.created_at :=
  get_memory_read_idempotent [ex_row] "m1" [10, 20, 30] ex_row (by rfl)

/-- Temporal analysis only ever emits `Temporal` patterns. -/
theorem temporal_patterns_not_contextual (d : PatternDetector)
    (ms : List MemoryItem) (t : String) :
    ∀ p ∈ detect_temporal_patterns d ms, is_contextual_for t p = false := by
  intro p hp
  simp only [detect_temporal_patterns] at hp
  split at hp
  · simp at hp
  · split at hp
    · simp only [List.mem_singleton] at hp
      subst hp
      rfl
    · simp at hp

/-- Behavioral analysis only ever emits `Behavioral` patterns. -/
theorem behavioral_patterns_not_contextual (ms : List MemoryItem) (t : String) :
    ∀ p ∈ detect_behavioral_patterns ms, is_contextual_for t p = false := by
  intro p hp
  simp only [detect_behavioral_patterns] at hp
  split at hp
  · simp at hp
  · simp only [List.mem_singleton] at hp
    subst hp
    rfl

/-- Every contextual pattern of the counterexample batch has confidence
exactly `1/2`. -/
theorem cex_contextual_confidence :
    ∀ p ∈ detect_contextual_patterns PatternDetector.new cex_batch,
      p.confidence = 1/2 := by
  intro p hp
  simp only [detect_contextual_patterns, List.mem_filterMap] at hp
  obtain ⟨k, hk, hsome⟩ := hp
  have htok : token_occurrences cex_batch = ["alpha", "beta", "gamma", "delta"] := by
    decide
  have hded : (token_occurrences cex_batch).dedup
      = ["alpha", "beta", "gamma", "delta"] := by
    rw [htok]; decide
  rw [hded] at hk
  rw [htok] at hsome
  have hlen : cex_batch.length = 2 := rfl
  rw [hlen] at hsome
  fin_cases hk <;> split at hsome <;> simp_all
  all_goals (subst hsome; rfl)

/-- C7 counterexample: in a batch of two items with contents
`alpha beta` and `gamma delta`, the token `alpha` has frequency ratio `1/2`,
which reaches `threshold * 0.5 = 0.35`, yet `detect_patterns` returns no
contextual pattern for it: the final filter of `detect_patterns` discards
every pattern with confidence below the full threshold `0.7`. -/
theorem detect_patterns_contextual_claim_cex :
    ((keyword_count cex_batch "alpha" : ℚ) / (cex_batch.length : ℚ)
        ≥ PatternDetector.new.detection_threshold * (1/2)) ∧
    (detect_patterns PatternDetector.new cex_batch).any
        (is_contextual_for "alpha") = false := by
  constructor
  · have h1 : keyword_count cex_batch "alpha" = 1 := by decide
    have h2 : cex_batch.length = 2 := rfl
    rw [h1, h2]
    norm_num [PatternDetector.new]
  · rw [List.any_eq_false]
    intro p hp
    simp only [detect_patterns, List.mem_filter, List.mem_append] at hp
    obtain ⟨hpmem, hpconf⟩ := hp
    rcases hpmem with (htemp | hctx) | hbeh
    · simp [temporal_patterns_not_contextual PatternDetector.new cex_batch
        "alpha" p htemp]
    · have hconf := cex_contextual_confidence p hctx
      rw [hconf] at hpconf
      norm_num [PatternDetector.new] at hpconf
    · simp [behavioral_patterns_not_contextual cex_batch "alpha" p hbeh]

/-- C7 as amended: a contextual pattern for a token survives into the
returned list of `detect_patterns` precisely when its frequency ratio also
reaches the full `detection_threshold` (0.7, not `threshold * 0.5`); for
every token of the batch with ratio at least 0.7, the returned pattern list
contains a contextual pattern for that token. -/
theorem detect_patterns_contextual_complete (memories : List MemoryItem)
    (t : String) (ht : t ∈ (token_occurrences memories).dedup)
    (hconf : (keyword_count memories t : ℚ) / (memories.length : ℚ)
        ≥ PatternDetector.new.detection_threshold) :
    (detect_patterns PatternDetector.new memories).any
      (is_contextual_for t) = true := by
  rw [List.any_eq_true]
  have hthr : PatternDetector.new.detection_threshold = 7/10 := rfl
  rw [hthr] at hconf
  set conf : ℚ :=
    ((token_occurrences memories).count t : ℚ) / (memories.length : ℚ) with hconfdef
  have hc : conf ≥ 7/10 := hconf
  refine ⟨{ pattern_type :=
              .Contextual t ("User frequently deals with " ++ t) conf
            confidence := conf
            description := "Frequent context: " ++ t }, ?_, ?_⟩
  · simp only [detect_patterns, List.mem_filter, List.mem_append]
    constructor
    · refine Or.inl (Or.inr ?_)
      simp only [detect_contextual_patterns, List.mem_filterMap]
      refine ⟨t, ht, ?_⟩
      rw [if_pos]
      have : PatternDetector.new.detection_threshold * (1/2) = 7/20 := by
        norm_num [PatternDetector.new]
      rw [this]
      linarith
    · simp only [hthr, ge_iff_le, decide_eq_true_eq]
      exact hc
  · simp [is_contextual_for]

/-- Witness for `detect_patterns_contextual_complete`: a one-item batch whose
content is `hello hello` has token ratio 2 for `hello`, and the returned
pattern list contains a contextual pattern for it. -/
theorem detect_patterns_contextual_complete_witness :
    ("hello" ∈ (token_occurrences [c7w_item]).dedup) ∧
    ((keyword_count [c7w_item] "hello" : ℚ) / (([c7w_item] : List MemoryItem).length : ℚ)
        ≥ PatternDetector.new.detection_threshold) ∧
    (detect_patterns PatternDetector.new [c7w_item]).any
      (is_contextual_for "hello") = true := by
  have h1 : "hello" ∈ (token_occurrences [c7w_item]).dedup := by decide
  have h2 : (keyword_count [c7w_item] "hello" : ℚ)
      / (([c7w_item] : List MemoryItem).length : ℚ)
      ≥ PatternDetector.new.detection_threshold := by
    have hc : keyword_count [c7w_item] "hello" = 2 := by decide
    have hl : ([c7w_item] : List MemoryItem).length = 1 := rfl
    rw [hc, hl]
    norm_num [PatternDetector.new]
  exact ⟨h1, h2, detect_patterns_contextual_complete [c7w_item] "hello" h1 h2⟩

/-- Two anomaly builders that agree on the affected ids produce the same
flagged-id list over any batch. -/
theorem filterMap_affected_congr {α : Type} (l : List α)
    (f g : α → Option DetectedAnomaly)
    (h : ∀ x, (f x).map (fun a => a.affected_memories)
        = (g x).map (fun a => a.affected_memories)) :
    (l.filterMap f).flatMap (fun a => a.affected_memories)
      = (l.filterMap g).flatMap (fun a => a.affected_memories) := by
  induction l with
  | nil => rfl
  | cons a l ih =>
      have ha := h a
      cases hf : f a with
      | none =>
          cases hg : g a with
          | none => simpa [List.filterMap_cons, hf, hg] using ih
          | some c => rw [hf, hg] at ha; simp at ha
      | some b =>
          cases hg : g a with
          | none => rw [hf, hg] at ha; simp at ha
          | some c =>
              rw [hf, hg] at ha
              simp only [Option.map_some', Option.some_inj] at ha
              simp [List.filterMap_cons, hf, hg, ha, ih]

/-- The flagged ids of the access check do not depend on the detection
time. -/
theorem access_ids_time_invariant (det : AnomalyDetector) (now1 now2 : Int)
    (ms : List MemoryItem) :
    (detect_access_anomalies det now1 ms).flatMap (fun a => a.affected_memories)
      = (detect_access_anomalies det now2 ms).flatMap
          (fun a => a.affected_memories) := by
  simp only [detect_access_anomalies]
  split
  · rfl
  · apply filterMap_affected_congr
    intro m
    split <;> rfl

/-- The flagged ids of the contextual-conflict check do not depend on the
detection time. -/
theorem contextual_ids_time_invariant (now1 now2 : Int)
    (ms : List MemoryItem) :
    (detect_contextual_anomalies now1 ms).flatMap (fun a => a.affected_memories)
      = (detect_contextual_anomalies now2 ms).flatMap
          (fun a => a.affected_memories) := by
  apply filterMap_affected_congr
  intro m
  split <;> rfl

/-- The flagged ids of the volume check do not depend on the detection
time. -/
theorem volume_ids_time_invariant (det : AnomalyDetector) (now1 now2 : Int)
    (days : List Int) (ms : List MemoryItem) :
    (detect_volume_anomalies det now1 days ms).flatMap
        (fun a => a.affected_memories)
      = (detect_volume_anomalies det now2 days ms).flatMap
          (fun a => a.affected_memories) := by
  simp only [detect_volume_anomalies]
  by_cases h7 : days.length < 7
  · rw [if_pos h7, if_pos h7]
  · rw [if_neg h7, if_neg h7]
    apply filterMap_affected_congr
    intro d
    split <;> rfl

/-- Re-enumerating the daily-count map in a different order permutes the
volume-anomaly list: the mean and variance are order-insensitive sums, so
each day is flagged identically. -/
theorem volume_anomalies_perm (det : AnomalyDetector) (now : Int)
    (d1 d2 : List Int) (ms : List MemoryItem) (hperm : d1.Perm d2) :
    (detect_volume_anomalies det now d1 ms).Perm
      (detect_volume_anomalies det now d2 ms) := by
  have hlen : d1.length = d2.length := hperm.length_eq
  have hsum : (d1.map (fun d => (day_count ms d : ℚ))).sum
      = (d2.map (fun d => (day_count ms d : ℚ))).sum :=
    (hperm.map _).sum_eq
  simp only [detect_volume_anomalies, List.length_map]
  rw [hlen, hsum]
  by_cases h7 : d2.length < 7
  · rw [if_pos h7, if_pos h7]
  · rw [if_neg h7, if_neg h7]
    have hvar : ((d1.map (fun d => (day_count ms d : ℚ))).map
        (fun x => (x - (d2.map (fun d => (day_count ms d : ℚ))).sum
            / (d2.length : ℚ)) ^ 2)).sum
        = ((d2.map (fun d => (day_count ms d : ℚ))).map
        (fun x => (x - (d2.map (fun d => (day_count ms d : ℚ))).sum
            / (d2.length : ℚ)) ^ 2)).sum :=
      ((hperm.map _).map _).sum_eq
    rw [hvar]
    exact hperm.filterMap _

/-- C6: the set of flagged ids of `detect_anomalies` is a function of the
batch alone: it does not depend on the detection timestamp, nor on the
iteration order of the daily-count map — two runs over an unchanged batch
flag an identical id set. -/
theorem anomaly_detection_deterministic (ms : List MemoryItem)
    (now1 now2 : Int) (days1 days2 : List Int)
    (h1 : valid_day_order ms days1) (h2 : valid_day_order ms days2) :
    flagged_ids (detect_anomalies AnomalyDetector.new now1 days1 ms)
      = flagged_ids (detect_anomalies AnomalyDetector.new now2 days2 ms) := by
  have hperm : days1.Perm days2 := by
    rw [List.perm_ext_iff_of_nodup h1.1 h2.1]
    intro d
    exact (h1.2 d).trans (h2.2 d).symm
  have hacc := access_ids_time_invariant AnomalyDetector.new now1 now2 ms
  have hctx := contextual_ids_time_invariant now1 now2 ms
  have hvol : ((detect_volume_anomalies AnomalyDetector.new now1 days1 ms).flatMap
      (fun a => a.affected_memories)).Perm
      ((detect_volume_anomalies AnomalyDetector.new now2 days2 ms).flatMap
      (fun a => a.affected_memories)) := by
    refine List.Perm.trans
      ((volume_anomalies_perm AnomalyDetector.new now1 days1 days2 ms
          hperm).flatMap_right _) ?_
    rw [volume_ids_time_invariant AnomalyDetector.new now1 now2 days2 ms]
  unfold flagged_ids detect_anomalies
  ext a
  simp only [List.mem_toFinset, List.flatMap_append, List.mem_append]
  rw [hacc, hctx, hvol.mem_iff]

/-- Witness for `anomaly_detection_deterministic`: two runs over a one-item
batch (detection times 0 and 5) flag the same id set. -/
theorem anomaly_detection_deterministic_witness :
    flagged_ids (detect_anomalies AnomalyDetector.new 0 [0] [c6_item])
      = flagged_ids (detect_anomalies AnomalyDetector.new 5 [0] [c6_item]) := by
  have h : valid_day_order [c6_item] [0] := by
    constructor
    · simp
    · intro d
      simp [c6_item, mk_item, date_of, eq_comm]
  exact anomaly_detection_deterministic [c6_item] 0 5 [0] [0] h h

/-- C3: for every item whose `last_accessed` is not in the future and whose
`access_count` fits in `u32`, and for every context, the relevance score
`0.4 * time + 0.3 * frequency + 0.3 * context` lies in `[0, 1]`:
the time score is `exp` of a non-positive argument, the frequency score is
`log10(1 + n)/10 ≤ log10(2^32)/10 < 1`, and the context score is clamped
into `[0, 1]`. -/
theorem calculate_relevance_bounded (now : Int) (memory : MemoryItem)
    (context : ContextState) (hla : memory.last_accessed ≤ now)
    (hac : memory.access_count < 2 ^ 32) :
    calculate_relevance RelevanceScorer.new now memory context ∈
      Set.Icc (0 : ℝ) 1 := by
  have hhrs : (0 : Int) ≤ hours_since now memory.last_accessed :=
    Int.ediv_nonneg (by omega) (by norm_num)
  have hh : (0 : ℝ) ≤ (hours_since now memory.last_accessed : ℝ) := by
    exact_mod_cast hhrs
  have hts0 : 0 < calculate_time_score RelevanceScorer.new now memory :=
    Real.exp_pos _
  have hts1 : calculate_time_score RelevanceScorer.new now memory ≤ 1 := by
    rw [calculate_time_score, Real.exp_le_one_iff,
      show RelevanceScorer.new.time_decay_factor = (0.1 : ℝ) from rfl]
    nlinarith
  have hacn : memory.access_count < 4294967296 := by
    norm_num at hac
    exact hac
  have hcastac : (memory.access_count : ℝ) < 4294967296 := by
    exact_mod_cast hacn
  have hlog0 : 0 ≤ Real.logb 10 (1 + (memory.access_count : ℝ)) :=
    Real.logb_nonneg (by norm_num)
      (by nlinarith [Nat.cast_nonneg (α := ℝ) memory.access_count])
  have hfs0 : 0 ≤ calculate_frequency_score memory := by
    rw [calculate_frequency_score]
    linarith
  have hfs1 : calculate_frequency_score memory ≤ 1 := by
    rw [calculate_frequency_score]
    have hrp : ((10 : ℝ) ^ (10 : ℝ)) = ((10 : ℝ) ^ (10 : ℕ)) := by
      rw [← Real.rpow_natCast 10 10]
      norm_num
    have h1 : (1 + (memory.access_count : ℝ)) ≤ (10 : ℝ) ^ (10 : ℝ) := by
      rw [hrp]
      norm_num
      nlinarith
    have h2 : Real.logb 10 (1 + (memory.access_count : ℝ)) ≤ 10 := by
      calc Real.logb 10 (1 + (memory.access_count : ℝ))
          ≤ Real.logb 10 ((10 : ℝ) ^ (10 : ℝ)) :=
            (Real.logb_le_logb (by norm_num)
              (by nlinarith [Nat.cast_nonneg (α := ℝ) memory.access_count])
              (by rw [hrp]; norm_num)).mpr h1
        _ = 10 := Real.logb_rpow (by norm_num) (by norm_num)
    linarith
  have hcs0 : 0 ≤ calculate_context_score memory context := by
    simp only [calculate_context_score]
    refine le_min ?_ (by norm_num)
    have htask : (0 : ℝ) ≤
        (match context.current_task with
         | some task =>
             if str_contains (lower_str memory.content) (lower_str task)
             then (0.5 : ℝ) else 0
         | none => 0) := by
      cases context.current_task with
      | none => exact le_refl 0
      | some t =>
          dsimp only
          split <;> norm_num
    have happ : (0 : ℝ) ≤ 0.3 *
        ((context.active_applications.filter
          (fun app => str_contains (lower_str memory.content)
            (lower_str app.name))).length : ℝ) := by positivity
    have htag : (0 : ℝ) ≤ 0.2 *
        ((memory.tags.filter
          (fun tag =>
            context.user_preferences.communication_style.preferred_tone.contains
              (lower_str tag))).length : ℝ) := by positivity
    linarith
  have hcs1 : calculate_context_score memory context ≤ 1 := by
    simp only [calculate_context_score]
    exact min_le_right _ _
  rw [calculate_relevance,
    show RelevanceScorer.new.recency_weight = (0.4 : ℝ) from rfl,
    show RelevanceScorer.new.frequency_weight = (0.3 : ℝ) from rfl,
    show RelevanceScorer.new.context_weight = (0.3 : ℝ) from rfl]
  constructor
  · nlinarith [hts0.le, hfs0, hcs0]
  · nlinarith [hts1, hfs1, hcs1, hts0.le, hfs0, hcs0]

/-- Witness for `calculate_relevance_bounded` at a concrete item and
context. -/
theorem calculate_relevance_bounded_witness :
    c9_item.last_accessed ≤ (0 : Int) ∧ c9_item.access_count < 2 ^ 32 ∧
    calculate_relevance RelevanceScorer.new 0 c9_item c9_context ∈
      Set.Icc (0 : ℝ) 1 :=
  ⟨by decide, by decide,
   calculate_relevance_bounded 0 c9_item c9_context (by decide) (by decide)⟩

/-- C9: with current task `report` and a batch containing an item whose
lowercased content contains `report`, last accessed exactly one hour before
`now` and read 10 times, `predict_relevant_memories` emits the
relevant-memories prediction and its confidence (the top relevance score
among the items that scored above 0.5) exceeds 0.5. -/
theorem predict_relevant_memories_report (now : Int) (context : ContextState)
    (memories : List MemoryItem) (memory : MemoryItem)
    (hmem : memory ∈ memories)
    (htask : context.current_task = some "report")
    (hcontains : str_contains (lower_str memory.content) "report" = true)
    (hacc : memory.access_count = 10)
    (hla : memory.last_accessed = now - 3600) :
    ∃ p ∈ predict_relevant_memories now context memories,
      p.prediction_type = "relevant_memories" ∧ (1/2 : ℝ) < p.confidence := by
  have hhrs : hours_since now memory.last_accessed = 1 := by
    rw [hours_since, hla, show now - (now - 3600) = 3600 by ring]
    decide
  have hts : (0.9 : ℝ) ≤ calculate_time_score RelevanceScorer.new now memory := by
    rw [calculate_time_score, hhrs,
      show RelevanceScorer.new.time_decay_factor = (0.1 : ℝ) from rfl]
    have h := Real.add_one_le_exp (-(0.1 : ℝ) * ((1 : ℤ) : ℝ))
    push_cast at h ⊢
    linarith
  have hfs : (0.1 : ℝ) ≤ calculate_frequency_score memory := by
    rw [calculate_frequency_score, hacc]
    have h1 : (1 : ℝ) ≤ Real.logb 10 11 := by
      rw [← Real.logb_self_eq_one (b := 10) (by norm_num)]
      exact (Real.logb_le_logb (by norm_num) (by norm_num) (by norm_num)).mpr
        (by norm_num)
    push_cast
    norm_num
    linarith
  have hcs : (1/2 : ℝ) ≤ calculate_context_score memory context := by
    simp only [calculate_context_score, htask]
    rw [show lower_str "report" = "report" from rfl, hcontains]
    simp only [if_pos rfl]
    refine le_min ?_ (by norm_num)
    have happ : (0 : ℝ) ≤ 0.3 *
        ((context.active_applications.filter
          (fun app => str_contains (lower_str memory.content)
            (lower_str app.name))).length : ℝ) := by positivity
    have htag : (0 : ℝ) ≤ 0.2 *
        ((memory.tags.filter
          (fun tag =>
            context.user_preferences.communication_style.preferred_tone.contains
              (lower_str tag))).length : ℝ) := by positivity
    norm_num
    linarith
  have hscore : (0.5 : ℝ) < calculate_relevance RelevanceScorer.new now memory context := by
    rw [calculate_relevance,
      show RelevanceScorer.new.recency_weight = (0.4 : ℝ) from rfl,
      show RelevanceScorer.new.frequency_weight = (0.3 : ℝ) from rfl,
      show RelevanceScorer.new.context_weight = (0.3 : ℝ) from rfl]
    nlinarith [hts, hfs, hcs]
  simp only [predict_relevant_memories]
  set scored := memories.map
    (fun m => (calculate_relevance RelevanceScorer.new now m context, m))
    with hscored
  set relevant := scored.filter (fun p => decide ((0.5 : ℝ) < p.1)) with hrel
  set sorted := List.insertionSort
    (fun a b : ℝ × MemoryItem => b.1 ≤ a.1) relevant with hsorted
  have hpair : (calculate_relevance RelevanceScorer.new now memory context,
      memory) ∈ scored := by
    rw [hscored]
    exact List.mem_map_of_mem _ hmem
  have hpairrel : (calculate_relevance RelevanceScorer.new now memory context,
      memory) ∈ relevant := by
    rw [hrel]
    exact List.mem_filter.mpr ⟨hpair, decide_eq_true hscore⟩
  have hperm : sorted.Perm relevant := List.perm_insertionSort _ _
  have hsne : sorted ≠ [] := by
    intro e
    have := hperm.length_eq
    rw [e] at this
    have hrne : relevant ≠ [] := List.ne_nil_of_mem hpairrel
    exact hrne (List.eq_nil_of_length_eq_zero this.symm)
  obtain ⟨top, rest, hs⟩ : ∃ a l, sorted = a :: l := by
    cases h' : sorted with
    | nil => exact absurd h' hsne
    | cons a l => exact ⟨a, l, rfl⟩
  have htoprel : top ∈ relevant := hperm.mem_iff.mp (by rw [hs]; exact List.mem_cons_self _ _)
  have htopgt : (0.5 : ℝ) < top.1 := by
    rw [hrel] at htoprel
    exact of_decide_eq_true (List.mem_filter.mp htoprel).2
  rw [hs]
  refine ⟨_, List.mem_singleton.mpr rfl, rfl, ?_⟩
  show (1/2 : ℝ) < top.1
  linarith

/-- Witness for `predict_relevant_memories_report`: the concrete scenario
item inside a one-item batch. -/
theorem predict_relevant_memories_report_witness :
    ∃ p ∈ predict_relevant_memories 0 c9_context [c9_item],
      p.prediction_type = "relevant_memories" ∧ (1/2 : ℝ) < p.confidence :=
  predict_relevant_memories_report 0 c9_context [c9_item] c9_item
    (List.mem_singleton.mpr rfl) rfl (by decide) rfl (by decide)

end Misa
